import Mathlib

/-!
# Verification of the snack-25-back seed / reconciliation engine

Shallow embedding of the catalog/reference-data reconciliation and
order-aggregation logic of `prisma/seed.ts` (and, where a claim refers to
them, of its historical variants kept in the repository).

Strings manipulated character by character (the TSV parser) are modelled over
`List Char`, with JavaScript-faithful re-implementations of `split`, `trim`
and `toLowerCase`; everywhere else Lean `String` with its decidable equality
is used.  Database tables are lists of rows; Prisma `createMany` with
`skipDuplicates: true` is insert-if-absent with respect to the table's unique
constraints; a whole transaction is `Except String`, an error meaning the
transaction rolled back with nothing applied.  Timestamp columns
(`createdAt`/`updatedAt`) and other scalar columns that no verified property
reads are omitted from the row structures.
-/

namespace Snack25

/-! ## JavaScript string primitives -/

/-- JavaScript `String.prototype.split` with a single-character separator:
empty components are kept, `"".split(sep)` is `[""]`. -/
def jsSplit (sep : Char) : List Char → List (List Char)
  | [] => [[]]
  | c :: cs =>
    match jsSplit sep cs with
    | [] => [[]]
    | h :: t => if c = sep then [] :: h :: t else (c :: h) :: t

/-- JavaScript `String.prototype.trim` (the inputs of interest are ASCII, for
which JS and Unicode whitespace agree). -/
def jsTrim (s : List Char) : List Char :=
  ((s.dropWhile Char.isWhitespace).reverse.dropWhile Char.isWhitespace).reverse

/-- JavaScript `String.prototype.toLowerCase`, restricted to the ASCII range
exercised by the data. -/
def jsToLower (s : List Char) : List Char := s.map Char.toLower

/-! ## The zipcodes.tsv parser (seed.ts lines 63-86) -/

/-- A parsed reference row, as built by the row mapper in `seed.ts`:
`postalCode`, `feeType`, `isActive`, `juso` (address).  `feeType` stays a raw
string because the source casts it unchecked (`feeType.trim() as FeeType`). -/
structure ZipRow where
  postalCode : String
  feeType : String
  isActive : Bool
  juso : String
deriving DecidableEq, Repr

/-- Field of a JS array destructuring: a missing component is `undefined`,
which the `!field` check treats exactly like the empty string. -/
def fieldAt (fs : List (List Char)) (i : Nat) : List Char := fs.getD i []

/-- The malformed-row condition of `seed.ts` line 74:
`!postalCode || !feeType || !isActive || !juso` after splitting on tab. -/
def malformed (line : List Char) : Bool :=
  let fs := jsSplit '\t' line
  (fieldAt fs 0).isEmpty || (fieldAt fs 1).isEmpty ||
    (fieldAt fs 2).isEmpty || (fieldAt fs 3).isEmpty

/-- The error thrown for a malformed row (seed.ts line 76); it carries the
offending raw line verbatim. -/
def zipErrMsg (line : List Char) : String :=
  "❌ 잘못된 데이터 형식: " ++ String.mk line

/-- One data line of `zipcodes.tsv` (seed.ts lines 64-85): split on tab,
reject when any of the four fields is missing or empty, otherwise trim each
field and compare the lowercased `isActive` field to `"true"`. -/
def parseZipLine (line : List Char) : Except String ZipRow :=
  let fs := jsSplit '\t' line
  if malformed line then
    Except.error (zipErrMsg line)
  else
    Except.ok
      { postalCode := String.mk (jsTrim (fieldAt fs 0))
      , feeType := String.mk (jsTrim (fieldAt fs 1))
      , isActive := jsToLower (jsTrim (fieldAt fs 2)) == "true".data
      , juso := String.mk (jsTrim (fieldAt fs 3)) }

/-- Header skip and blank-line filter (seed.ts line 63):
`split('\n').slice(1).filter(Boolean)`. -/
def zipFileLines (content : List Char) : List (List Char) :=
  ((jsSplit '\n' content).drop 1).filter (fun l => !l.isEmpty)

/-- Parse a list of data lines; the first failing line aborts the whole load
(the surrounding transaction rolls back, so no partial data survives). -/
def parseZipList : List (List Char) → Except String (List ZipRow)
  | [] => Except.ok []
  | l :: ls => do
    let z ← parseZipLine l
    let zs ← parseZipList ls
    pure (z :: zs)

/-- The whole `zipcodes.tsv` ingestion step of `seed.ts`. -/
def parseZipFile (content : List Char) : Except String (List ZipRow) :=
  parseZipList (zipFileLines content)

/-! ## Generic `createMany` with `skipDuplicates: true` -/

/-- Prisma `createMany` with `skipDuplicates: true`: rows are taken in batch
order and a row is skipped exactly when it conflicts — violates a unique
constraint — with a row already in the table, including rows inserted earlier
from the same batch.  Rows already present are never overwritten. -/
def createManyWith (conflict : α → α → Bool) (table : List α) :
    List α → List α
  | [] => table
  | r :: rs =>
    if table.any (conflict r) then createManyWith conflict table rs
    else createManyWith conflict (table ++ [r]) rs

/-- `createMany skipDuplicates` for a table whose only unique constraint is
its primary key. -/
def createManyById (key : α → String) (table batch : List α) : List α :=
  createManyWith (fun r s => key r == key s) table batch

/-! ## The reference-code (zipcode) resync -/

/-- Projection fingerprinted by `hashData` (seed.ts lines 104-118): it keeps
`postalCode`, `feeType`, `isActive` and drops the `juso` address text (and
the db-generated row id). -/
structure ZipProj where
  postalCode : String
  feeType : String
  isActive : Bool
deriving DecidableEq, Repr

/-- The fields of a row that `hashData` serializes. -/
def ZipRow.proj (z : ZipRow) : ZipProj := ⟨z.postalCode, z.feeType, z.isActive⟩

/-- `hashData` (seed.ts lines 104-118) computes
`sha256(JSON.stringify(data.map(project)))` over the rows *in array order*.
`JSON.stringify` with this fixed key order is injective on the projected
records and SHA-256 is deterministic (collisions are neglected, as the code
itself does), so equality of the hash coincides with equality of the
projected record sequence; the fingerprint is therefore modelled as that
sequence. -/
def hashData (data : List ZipRow) : List ZipProj := data.map ZipRow.proj

/-- Whether two zipcode rows collide on a unique constraint.  Modelled from
the spec: the Zipcode schema file is not among the sources; the spec states a
reference row is "Unique per `(code, address)` pair", so `skipDuplicates`
skips a row whose `(postalCode, juso)` pair is already present.  Rows carry
no id here: db-generated ids play no role in the resync and the table is
represented by its list of row contents. -/
def ZipRow.conflict (r s : ZipRow) : Bool :=
  r.postalCode == s.postalCode && r.juso == s.juso

/-- `tx.zipcode.createMany skipDuplicates` at the content level. -/
def zipCreateMany (table batch : List ZipRow) : List ZipRow :=
  createManyWith ZipRow.conflict table batch

/-- Which branch the resync took, as reported by the seed's log messages. -/
inductive ResyncBranch
  | emptyLoad
  | noop
  | fullReplace
deriving DecidableEq, Repr

/-- The resync decision of `seed.ts` (lines 91-123): unconditionally resync
when the stored table is empty, otherwise exactly when the fingerprints of
the stored and the incoming datasets differ (`hasChanges`). -/
def needsResync (stored incoming : List ZipRow) : Bool :=
  decide (stored.length = 0 ∨ hashData stored ≠ hashData incoming)

/-- The zipcode resync of `seed.ts` (lines 91-147) restricted to the zipcode
table content, together with the branch taken: empty table → load everything;
fingerprints equal → no-op; fingerprints differ → delete everything and
reload (the full-replace branch; its effect on company addresses is modelled
separately below). -/
def zipcodeResync (stored incoming : List ZipRow) : List ZipRow × ResyncBranch :=
  if stored.length = 0 then
    (zipCreateMany stored incoming, ResyncBranch.emptyLoad)
  else if hashData stored = hashData incoming then
    (stored, ResyncBranch.noop)
  else
    (zipCreateMany [] incoming, ResyncBranch.fullReplace)

/-- Final zipcode table under the fingerprint-comparison strategy. -/
def zipcodeResyncTable (stored incoming : List ZipRow) : List ZipRow :=
  (zipcodeResync stored incoming).1

/-- The magic-row-count variant of the resync (historical seed variant,
`src/unnamed/part_002` lines 88-112): empty table → load; stored count
exactly 11931 → skip without hashing; any other count → delete everything
and reload. -/
def zipcodeResyncMagic (stored incoming : List ZipRow) : List ZipRow :=
  if stored.length = 0 then zipCreateMany stored incoming
  else if stored.length = 11931 then stored
  else zipCreateMany [] incoming

/-! ## Entity rows

Only the columns some verified property reads are modelled; the remaining
scalar columns of the Prisma models (timestamps, notes, …) are carried by no
claim and are omitted. -/

/-- A stored `Zipcode` row: db-generated id plus the parsed content. -/
structure Zipcode where
  id : String
  postalCode : String
  feeType : String
  isActive : Bool
  juso : String
deriving DecidableEq, Repr

structure Company where
  id : String
  name : String
deriving DecidableEq, Repr

structure CompanyAddress where
  id : String
  companyId : String
  postalCode : String
  address : String
  zipcodeId : Option String
deriving DecidableEq, Repr

structure Category where
  id : String
  parentId : Option String
  companyId : String
  name : String
deriving DecidableEq, Repr

structure User where
  id : String
deriving DecidableEq, Repr

structure Product where
  id : String
  price : Int
deriving DecidableEq, Repr

structure Cart where
  id : String
  userId : String
deriving DecidableEq, Repr

structure OrderRequest where
  id : String
  requesterId : String
  companyId : String
  status : String
  totalAmount : Int
deriving DecidableEq, Repr

structure OrderRequestItem where
  id : String
  orderRequestId : String
  productId : String
  quantity : Int
  price : Int
deriving DecidableEq, Repr

/-- The `categories` table of the Category schema (`src/unnamed/part_001`)
has, besides the primary key, `@@unique([companyId, parentId, name])`. -/
def Category.conflict (r s : Category) : Bool :=
  r.id == s.id ||
    (r.companyId == s.companyId && r.parentId == s.parentId && r.name == s.name)

/-- The `order_request_items` table (`src/prisma/schema/OrderRequestItem.prisma`)
has, besides the primary key, `@@unique([orderRequestId, productId])`. -/
def OrderRequestItem.conflict (r s : OrderRequestItem) : Bool :=
  r.id == s.id ||
    (r.orderRequestId == s.orderRequestId && r.productId == s.productId)

deriving instance DecidableEq for Except

/-- The destination store: one list of rows per table. -/
structure SeedState where
  zipcodes : List Zipcode
  companies : List Company
  companyAddresses : List CompanyAddress
  categories : List Category
  users : List User
  products : List Product
  carts : List Cart
  orderRequests : List OrderRequest
  orderRequestItems : List OrderRequestItem
deriving DecidableEq, Repr

/-- The dataset bundle the loader consumes (the JSON files loaded at the top
of `seed.ts`). -/
structure Bundle where
  companies : List Company
  companyAddresses : List CompanyAddress
  categories : List Category
  subCategories : List Category
  users : List User
  products : List Product
  carts : List Cart
deriving DecidableEq, Repr

/-! ## Geo/reference resolver (seed.ts lines 172-193) -/

/-- Key of the in-memory cache `zipCodeMap` (seed.ts line 174): the plain
string concatenation `postalCode + "-" + juso`. -/
def zipKey (postalCode juso : String) : String := postalCode ++ "-" ++ juso

/-- Lookup in the JS `Map` built by `new Map(entries)`: on duplicate keys the
entry inserted last wins. -/
def zipMapGet (zips : List Zipcode) (k : String) : Option Zipcode :=
  zips.reverse.find? (fun z => zipKey z.postalCode z.juso == k)

/-- One row of `addressesToCreate` (seed.ts lines 177-187): the incoming
`zipcodeId` is stripped; on a cache hit the matched row's id is attached, on
a miss the field is simply absent — a miss is not an error. -/
def resolveAddress (zips : List Zipcode) (a : CompanyAddress) : CompanyAddress :=
  match zipMapGet zips (zipKey a.postalCode a.address) with
  | some z => { a with zipcodeId := some z.id }
  | none => { a with zipcodeId := none }

/-! ## The dependency-ordered loader (seed.ts lines 158-452)

The budget step (seed.ts lines 395-437) touches only the `budgets` table,
which no claim mentions, and is omitted. -/

def loadCompanies (b : Bundle) (st : SeedState) : SeedState :=
  { st with companies := createManyById (fun c => c.id) st.companies b.companies }

def loadAddresses (b : Bundle) (st : SeedState) : SeedState :=
  { st with companyAddresses :=
      (createManyById (fun a => a.id) st.companyAddresses
        (b.companyAddresses.map (resolveAddress st.zipcodes))) }

/-- `categories.map(category => ({...category, companyId: testCompany.id}))`
where `testCompany = companies[0]`: every row is stamped with the resolved
seed organization's id before insertion; with no company at index 0 the
first mapped row raises (a TypeError in the source). -/
def stampCompany (tc? : Option Company) : List Category → Except String (List Category)
  | [] => Except.ok []
  | c :: cs => do
    let tc ← match tc? with
      | some tc => Except.ok tc
      | none => Except.error ("TypeError: testCompany is undefined")
    let rest ← stampCompany tc? cs
    pure ({ c with companyId := tc.id } :: rest)

def loadCategories (b : Bundle) (st : SeedState) : Except String SeedState := do
  let parentCategories ← stampCompany b.companies.head? b.categories
  if b.categories.isEmpty then
    Except.error ("Categories not found")
  else
    pure { st with categories :=
      createManyWith Category.conflict st.categories parentCategories }

def loadSubCategories (b : Bundle) (st : SeedState) : Except String SeedState := do
  let subCategoriesWithCompany ← stampCompany b.companies.head? b.subCategories
  if b.subCategories.isEmpty then
    Except.error ("SubCategories not found")
  else
    pure { st with categories :=
      createManyWith Category.conflict st.categories subCategoriesWithCompany }

def loadUsers (b : Bundle) (st : SeedState) : SeedState :=
  { st with users := createManyById (fun u => u.id) st.users b.users }

def loadProducts (b : Bundle) (st : SeedState) : SeedState :=
  { st with products := createManyById (fun p => p.id) st.products b.products }

def loadCarts (b : Bundle) (st : SeedState) : SeedState :=
  { st with carts := createManyById (fun c => c.id) st.carts b.carts }

/-- The three fixed order-request ids seeded by `seed.ts` (lines 244-248). -/
def orderRequestIds : List String :=
  ["nz2p1larko8dcbyr7ej08v98", "xp569x8t45rbax2m2pqhqsnl", "uc4os87dbme8k5gom16lqb6u"]

/-- `getRequiredId` (seed.ts lines 37-45): JS truthiness check on
`entity?.id`, failing when the entity is absent or its id is empty. -/
def getRequiredId (entity : Option α) (getId : α → String) (errorMessage : String) :
    Except String String :=
  match entity with
  | none => Except.error errorMessage
  | some e => if getId e = "" then Except.error errorMessage else Except.ok (getId e)

/-- The order-request batch (seed.ts lines 249-280).  The source calls
`getRequiredId(testCompany, …)` once per record; the three calls are the same
pure application, so one binding stands for all of them.  `createdAt` and
`updatedAt` are not modelled. -/
def mkOrderRequests (b : Bundle) : Except String (List OrderRequest) := do
  let r0 ← getRequiredId (b.users.get? 0) (fun u => u.id) ("요청자 ID가 존재하지 않습니다.")
  let c0 ← getRequiredId b.companies.head? (fun c => c.id) ("회사 ID가 존재하지 않습니다.")
  let r1 ← getRequiredId (b.users.get? 6) (fun u => u.id) ("요청자 ID가 존재하지 않습니다.")
  let r2 ← getRequiredId (b.users.get? 1) (fun u => u.id) ("요청자 ID가 존재하지 않습니다.")
  pure
    [ { id := "nz2p1larko8dcbyr7ej08v98", requesterId := r0, companyId := c0
      , status := "PENDING", totalAmount := 0 }
    , { id := "xp569x8t45rbax2m2pqhqsnl", requesterId := r1, companyId := c0
      , status := "APPROVED", totalAmount := 0 }
    , { id := "uc4os87dbme8k5gom16lqb6u", requesterId := r2, companyId := c0
      , status := "REJECTED", totalAmount := 0 } ]

def loadOrderRequests (b : Bundle) (st : SeedState) : Except String SeedState := do
  let batch ← mkOrderRequests b
  pure { st with orderRequests :=
    createManyById (fun o => o.id) st.orderRequests batch }

/-- `products[i]` with the subsequent `.id` / `.price` access: a missing
index raises (a TypeError in the source). -/
def getProduct (b : Bundle) (i : Nat) : Except String Product :=
  match b.products.get? i with
  | some p => Except.ok p
  | none => Except.error ("TypeError: product is undefined")

/-- The six fixed order-request items (seed.ts lines 284-350); each snapshots
the referenced product's price.  The trailing
`.map((item, index) => ({...item, id: orderRequestItemsIds[index]}))`
re-assigns the id every record already carries and is a no-op. -/
def mkOrderRequestItems (b : Bundle) : Except String (List OrderRequestItem) := do
  let p0 ← getProduct b 0
  let p1 ← getProduct b 1
  let p2 ← getProduct b 2
  let p3 ← getProduct b 3
  pure
    [ ⟨"ux1idk821b5j1qmv6b30ncko", "nz2p1larko8dcbyr7ej08v98", p0.id, 2, p0.price⟩
    , ⟨"fugejwfmuo43d7po46psreto", "nz2p1larko8dcbyr7ej08v98", p1.id, 3, p1.price⟩
    , ⟨"vsqr28wsy0oxz1fzstc9s8l1", "xp569x8t45rbax2m2pqhqsnl", p1.id, 1, p1.price⟩
    , ⟨"iurp3qr1rffhzj9lan7sbu6c", "xp569x8t45rbax2m2pqhqsnl", p2.id, 3, p2.price⟩
    , ⟨"dirjv4wqu8fhb6up8n0frnzl", "xp569x8t45rbax2m2pqhqsnl", p3.id, 4, p3.price⟩
    , ⟨"hfe0sszybej58jdqfmqtnpgi", "uc4os87dbme8k5gom16lqb6u", p1.id, 2, p1.price⟩ ]

/-- `tx.orderRequestItem.create` per row (seed.ts line 365): unlike
`createMany skipDuplicates`, a plain `create` fails the transaction on a
unique-constraint violation.  `Promise.all` over distinct rows is modelled
sequentially. -/
def createItems (table : List OrderRequestItem) :
    List OrderRequestItem → Except String (List OrderRequestItem)
  | [] => Except.ok table
  | r :: rs =>
    if table.any (OrderRequestItem.conflict r) then
      Except.error ("P2002: unique constraint violation")
    else createItems (table ++ [r]) rs

/-- The insert-if-absent filter of seed.ts lines 352-363: query the
already-present ids among the batch ids (`existingItemIds`), then keep only
the batch rows whose id is absent. -/
def itemsToCreate (stored batch : List OrderRequestItem) : List OrderRequestItem :=
  let existingItemIds := (stored.filter
      (fun it => batch.any (fun r => r.id == it.id))).map (fun it => it.id)
  batch.filter (fun it => !(existingItemIds.contains it.id))

/-- Insert-if-absent for the order-request items (seed.ts lines 352-366):
create only the rows whose id is not already present. -/
def loadOrderRequestItems (b : Bundle) (st : SeedState) : Except String SeedState := do
  let batch ← mkOrderRequestItems b
  let items ← createItems st.orderRequestItems (itemsToCreate st.orderRequestItems batch)
  pure { st with orderRequestItems := items }

/-! ## Aggregate maintainer (seed.ts lines 368-393) -/

/-- JS-object accumulation of the reduce at seed.ts lines 375-383:
`if (!acc[orderId]) acc[orderId] = 0; acc[orderId] += price * quantity`, keys
kept in insertion order.  (`!0` re-seeds an entry already at `0` with `0`,
which changes nothing.) -/
def addTotal : List (String × Int) → String → Int → List (String × Int)
  | [], oid, amt => [(oid, amt)]
  | (k, v) :: rest, oid, amt =>
    if k = oid then (k, v + amt) :: rest else (k, v) :: addTotal rest oid amt

/-- `orderTotals`: group the queried items by `orderRequestId`, summing
`price * quantity` per envelope. -/
def orderTotals (items : List OrderRequestItem) : List (String × Int) :=
  items.foldl (fun acc it => addTotal acc it.orderRequestId (it.price * it.quantity)) []

/-- Apply the grouped totals: one `tx.orderRequest.update` per entry.  Every
entry's key is the id of a present order request (the group keys come from
rows whose `orderRequestId` was filtered against the seeded ids), so the
update is the in-place overwrite of `totalAmount`. -/
def applyTotals (orders : List OrderRequest) (totals : List (String × Int)) :
    List OrderRequest :=
  totals.foldl
    (fun os p => os.map (fun o =>
      if o.id = p.1 then { o with totalAmount := p.2 } else o))
    orders

/-- Step 9 of `seed.ts` (lines 368-393): query all items whose
`orderRequestId` is among `ids`, recompute each envelope's total from scratch
(not an incremental delta), and persist it. -/
def recomputeTotals (ids : List String) (items : List OrderRequestItem)
    (orders : List OrderRequest) : List OrderRequest :=
  applyTotals orders
    (orderTotals (items.filter (fun it => ids.contains it.orderRequestId)))

def loadTotals (st : SeedState) : SeedState :=
  { st with orderRequests :=
      recomputeTotals orderRequestIds st.orderRequestItems st.orderRequests }

/-- The dependency-ordered load transaction of `seed.ts` (lines 158-452,
budget step excluded): batches strictly in foreign-key order, an error
rolling the whole unit back. -/
def runLoad (b : Bundle) (st : SeedState) : Except String SeedState := do
  let st3 ← loadCategories b (loadAddresses b (loadCompanies b st))
  let st4 ← loadSubCategories b st3
  let st8 ← loadOrderRequests b (loadCarts b (loadProducts b (loadUsers b st4)))
  let st9 ← loadOrderRequestItems b st8
  pure (loadTotals st9)

/-! ## The full-replace branch at store level (seed.ts lines 125-141) -/

/-- First statement of the full-replace branch: set every company address's
`zipcodeId` to null. -/
def fullReplaceStep1 (st : SeedState) : SeedState :=
  { st with companyAddresses :=
      st.companyAddresses.map (fun a => { a with zipcodeId := none }) }

/-- Second statement: delete every zipcode row. -/
def fullReplaceStep2 (st : SeedState) : SeedState :=
  { st with zipcodes := [] }

/-- Third statement: insert the incoming rows; `newZips` are the created rows
with their db-generated ids. -/
def fullReplaceStep3 (st : SeedState) (newZips : List Zipcode) : SeedState :=
  { st with zipcodes := newZips }

/-- The whole full-replace branch, in statement order. -/
def fullReplace (st : SeedState) (newZips : List Zipcode) : SeedState :=
  fullReplaceStep3 (fullReplaceStep2 (fullReplaceStep1 st)) newZips

/-! ## Helpers for reasoning about the grouped totals -/

/-- First-match association lookup (JS object property read). -/
def lookupA : List (String × Int) → String → Option Int
  | [], _ => none
  | (k, v) :: rest, key => if k = key then some v else lookupA rest key

/-- Last-match association lookup (value left by sequentially applied
updates). -/
def lookupLast : List (String × Int) → String → Option Int
  | [], _ => none
  | (k, v) :: rest, key =>
    match lookupLast rest key with
    | some w => some w
    | none => if k = key then some v else none

/-- The sum `Σ price * quantity` over the items of one envelope. -/
def itemSum (items : List OrderRequestItem) (oid : String) : Int :=
  ((items.filter (fun it => it.orderRequestId == oid)).map
    (fun it => it.price * it.quantity)).sum

/-- Overwrite an envelope's persisted total. -/
def setTotal (o : OrderRequest) (v : Int) : OrderRequest := { o with totalAmount := v }

/-- Pointwise effect of applying a totals list to one order row. -/
def updByTotals (totals : List (String × Int)) (o : OrderRequest) : OrderRequest :=
  match lookupLast totals o.id with
  | some v => setTotal o v
  | none => o

/-! ## Small concrete datasets used by witnesses and counterexamples -/

def zipA : ZipRow := ⟨"11111", "JEJU", true, "제주시 A로"⟩

def zipB : ZipRow := ⟨"22222", "ISOLATED", false, "울릉군 B길"⟩

/-- A stored table of exactly 11931 pairwise distinct reference rows. -/
def bigStored : List ZipRow :=
  (List.range 11931).map (fun i => ⟨toString i, "JEJU", true, "X"⟩)

def demoZip : Zipcode := ⟨"z1", "11111", "JEJU", true, "제주시 A로"⟩

/-- An address whose (postalCode, address) key matches `demoZip`. -/
def demoAddrHit : CompanyAddress := ⟨"a1", "comp1", "11111", "제주시 A로", none⟩

/-- An address with no matching reference row (and a stale incoming
`zipcodeId` that the resolver strips). -/
def demoAddrMiss : CompanyAddress := ⟨"a2", "comp1", "99999", "서울시 B로", some ("stale")⟩

/-- A destination store holding one reference row and nothing else. -/
def demoStore : SeedState :=
  { zipcodes := [demoZip], companies := [], companyAddresses := [], categories := []
  , users := [], products := [], carts := [], orderRequests := [], orderRequestItems := [] }

/-- A small but complete dataset bundle; the category rows deliberately carry
a caller-supplied `companyId` that differs from the seed organization. -/
def demoBundle : Bundle :=
  { companies := [⟨"comp1", "스낵25"⟩]
  , companyAddresses := [demoAddrHit, demoAddrMiss]
  , categories := [⟨"cat1", none, "WRONG-TENANT", "음료"⟩]
  , subCategories := [⟨"cat2", some ("cat1"), "WRONG-TENANT", "탄산음료"⟩]
  , users := [⟨"u0"⟩, ⟨"u1"⟩, ⟨"u2"⟩, ⟨"u3"⟩, ⟨"u4"⟩, ⟨"u5"⟩, ⟨"u6"⟩]
  , products := [⟨"p0", 1000⟩, ⟨"p1", 500⟩, ⟨"p2", 1500⟩, ⟨"p3", 2000⟩]
  , carts := [⟨"cart1", "u4"⟩] }

/-- A bundle carrying only the two demo addresses. -/
def demoAddrBundle : Bundle :=
  { companies := [], companyAddresses := [demoAddrHit, demoAddrMiss], categories := []
  , subCategories := [], users := [], products := [], carts := [] }

/-- Extract the state of a successful run (used to state concrete
witnesses without spelling the resulting state out by hand). -/
def okOr (d : SeedState) : Except String SeedState → SeedState
  | Except.ok s => s
  | Except.error _ => d

/-- Line items of the claimed scenario: (price 1000, qty 2), (price 500, qty 3). -/
def demoItems : List OrderRequestItem :=
  [ ⟨"i1", "nz2p1larko8dcbyr7ej08v98", "p0", 2, 1000⟩
  , ⟨"i2", "nz2p1larko8dcbyr7ej08v98", "p1", 3, 500⟩ ]

/-- The envelope of the claimed scenario, freshly created with total 0. -/
def demoOrder : OrderRequest :=
  ⟨"nz2p1larko8dcbyr7ej08v98", "u0", "comp1", "PENDING", 0⟩

/-! ## Generic facts about `createMany skipDuplicates` -/

theorem createManyWith_append (c : α → α → Bool) (t b : List α) :
    ∃ s, createManyWith c t b = t ++ s := by
  induction b generalizing t with
  | nil => exact ⟨[], by simp [createManyWith]⟩
  | cons r rs ih =>
    cases h : t.any (c r) with
    | true => simpa [createManyWith, h] using ih t
    | false =>
      obtain ⟨s, hs⟩ := ih (t ++ [r])
      exact ⟨r :: s, by simp [createManyWith, h, hs]⟩

theorem createManyWith_any_mono (c : α → α → Bool) (t b : List α)
    (p : α → Bool) (h : t.any p = true) :
    (createManyWith c t b).any p = true := by
  obtain ⟨s, hs⟩ := createManyWith_append c t b
  simp [hs, List.any_append, h]

theorem createManyWith_conflict_mem (c : α → α → Bool) (hrefl : ∀ a, c a a = true)
    (t b : List α) :
    ∀ r ∈ b, (createManyWith c t b).any (c r) = true := by
  induction b generalizing t with
  | nil => intro r hr; cases hr
  | cons x xs ih =>
    intro r hr
    cases h : t.any (c x) with
    | true =>
      rcases List.mem_cons.mp hr with rfl | hr'
      · simpa [createManyWith, h] using createManyWith_any_mono c t xs _ h
      · simpa [createManyWith, h] using ih t r hr'
    | false =>
      rcases List.mem_cons.mp hr with rfl | hr'
      · have hx : (t ++ [r]).any (c r) = true := by simp [List.any_append, hrefl r]
        simpa [createManyWith, h] using createManyWith_any_mono c (t ++ [r]) xs _ hx
      · simpa [createManyWith, h] using ih (t ++ [x]) r hr'

theorem createManyWith_skip_all (c : α → α → Bool) (t b : List α)
    (h : ∀ r ∈ b, t.any (c r) = true) :
    createManyWith c t b = t := by
  induction b with
  | nil => simp [createManyWith]
  | cons r rs ih =>
    have hr := h r (List.mem_cons_self r rs)
    simp only [createManyWith, hr, if_pos]
    exact ih (fun x hx => h x (List.mem_cons_of_mem r hx))

theorem createManyWith_idem (c : α → α → Bool) (hrefl : ∀ a, c a a = true)
    (t b : List α) :
    createManyWith c (createManyWith c t b) b = createManyWith c t b :=
  createManyWith_skip_all c _ b (createManyWith_conflict_mem c hrefl t b)

theorem createManyWith_mem_or (c : α → α → Bool) (t b : List α) :
    ∀ x ∈ createManyWith c t b, x ∈ t ∨ x ∈ b := by
  induction b generalizing t with
  | nil => intro x hx; exact Or.inl (by simpa [createManyWith] using hx)
  | cons r rs ih =>
    intro x hx
    cases h : t.any (c r) with
    | true =>
      rcases ih t x (by simpa [createManyWith, h] using hx) with h' | h'
      · exact Or.inl h'
      · exact Or.inr (List.mem_cons_of_mem r h')
    | false =>
      rcases ih (t ++ [r]) x (by simpa [createManyWith, h] using hx) with h' | h'
      · rcases List.mem_append.mp h' with h'' | h''
        · exact Or.inl h''
        · exact Or.inr (List.mem_cons.mpr (Or.inl (by simpa using h'')))
      · exact Or.inr (List.mem_cons_of_mem r h')

theorem createManyWith_insert_all (c : α → α → Bool) (t b : List α) :
    (∀ r ∈ b, t.any (c r) = false) →
    b.Pairwise (fun r s => c s r = false) →
    createManyWith c t b = t ++ b := by
  induction b generalizing t with
  | nil => intro _ _; simp [createManyWith]
  | cons r rs ih =>
    intro hfree hpair
    have hr := hfree r (List.mem_cons_self r rs)
    have hpair' := (List.pairwise_cons.mp hpair).2
    have hhead := (List.pairwise_cons.mp hpair).1
    have hfree' : ∀ s ∈ rs, (t ++ [r]).any (c s) = false := by
      intro s hs
      simp [List.any_append, hfree s (List.mem_cons_of_mem r hs), hhead s hs]
    simp only [createManyWith, hr]
    simp only [Bool.false_eq_true, if_false]
    rw [ih (t ++ [r]) hfree' hpair']
    simp

/-! ## C5 and C10: the TSV line parser -/

theorem parseZipLine_of_malformed (l : List Char) (hm : malformed l = true) :
    parseZipLine l = Except.error (zipErrMsg l) := by
  simp [parseZipLine, hm]

theorem parseZipList_error (ls : List (List Char)) (l : List Char)
    (hl : l ∈ ls) (hm : malformed l = true) :
    ∃ l₀, l₀ ∈ ls ∧ malformed l₀ = true ∧
      parseZipList ls = Except.error (zipErrMsg l₀) := by
  induction ls with
  | nil => cases hl
  | cons x xs ih =>
    cases hx : malformed x with
    | true =>
      refine ⟨x, List.mem_cons_self x xs, hx, ?_⟩
      rw [parseZipList, parseZipLine_of_malformed x hx]
      rfl
    | false =>
      have hl' : l ∈ xs := by
        rcases List.mem_cons.mp hl with rfl | h
        · rw [hx] at hm; cases hm
        · exact h
      obtain ⟨l₀, h₀, hm₀, herr⟩ := ih hl'
      refine ⟨l₀, List.mem_cons_of_mem x h₀, hm₀, ?_⟩
      have hok : parseZipLine x = Except.ok
          { postalCode := String.mk (jsTrim (fieldAt (jsSplit '\t' x) 0))
          , feeType := String.mk (jsTrim (fieldAt (jsSplit '\t' x) 1))
          , isActive := jsToLower (jsTrim (fieldAt (jsSplit '\t' x) 2)) == "true".data
          , juso := String.mk (jsTrim (fieldAt (jsSplit '\t' x) 3)) } := by
        simp [parseZipLine, hx]
      rw [parseZipList, hok, herr]
      rfl

/-- C5: for every raw reference-feed line (after the header skip and the
blank-line filter) in which any of the four tab-separated required fields is
missing or empty, the whole ingestion step fails with an error carrying an
offending raw line verbatim (the first such line of the feed), and no parsed
data is produced — `Except.error` aborts the surrounding transaction. -/
theorem C5_malformed_row_fails_load (content : List Char) (l : List Char)
    (hl : l ∈ zipFileLines content) (hm : malformed l = true) :
    ∃ l₀, l₀ ∈ zipFileLines content ∧ malformed l₀ = true ∧
      parseZipFile content = Except.error ("❌ 잘못된 데이터 형식: " ++ String.mk l₀) :=
  parseZipList_error (zipFileLines content) l hl hm

/-- Witness for C5: a feed whose second data line misses the address field. -/
theorem C5_witness :
    ∃ l₀, l₀ ∈ zipFileLines ("h\ta\tb\tc\n11111\tJEJU\ttrue\t제주시\n22222\tJEJU\ttrue".data) ∧
      malformed l₀ = true ∧
      parseZipFile ("h\ta\tb\tc\n11111\tJEJU\ttrue\t제주시\n22222\tJEJU\ttrue".data) =
        Except.error ("❌ 잘못된 데이터 형식: " ++ String.mk l₀) :=
  C5_malformed_row_fails_load ("h\ta\tb\tc\n11111\tJEJU\ttrue\t제주시\n22222\tJEJU\ttrue".data)
    ("22222\tJEJU\ttrue".data) (by decide) (by decide)

/-- C10: for every line the parser accepts, the parsed `isActive` flag is
true exactly when the raw third field, trimmed and lowercased, is the string
`"true"`; any other non-empty value parses to `false` without raising a
malformed-row error (acceptance itself is what the hypothesis states). -/
theorem C10_isActive_iff (line : List Char) (row : ZipRow)
    (h : parseZipLine line = Except.ok row) :
    (row.isActive = true ↔ jsToLower (jsTrim (fieldAt (jsSplit '\t' line) 2)) = "true".data) := by
  by_cases hm : malformed line = true
  · rw [parseZipLine_of_malformed line hm] at h; cases h
  · simp only [parseZipLine, Bool.not_eq_true] at h hm
    rw [hm] at h
    simp only [Bool.false_eq_true, if_false, Except.ok.injEq] at h
    subst h
    simp

/-- Witness for C10: the line `11111→JEJU→1→제주시` is accepted (the value
`"1"` is non-empty, so it is not a malformed-row error) and parses with
`isActive = false`, since `"1"` trimmed and lowercased is not `"true"`. -/
theorem C10_witness :
    ((⟨"11111", "JEJU", false, "제주시"⟩ : ZipRow).isActive = true ↔
      jsToLower (jsTrim (fieldAt (jsSplit '\t' ("11111\tJEJU\t1\t제주시".data)) 2)) = "true".data) :=
  C10_isActive_iff ("11111\tJEJU\t1\t제주시".data) _ (by rfl)

/-! ## C2: the fingerprint is order-sensitive (and juso-independent) -/

/-- C2 counterexample: `[zipA, zipB]` and `[zipB, zipA]` agree as multisets on
the normalized (postalCode, feeType, isActive) fields — one is a permutation
of the other — yet the fingerprints differ, `needsResync` reports true when
the store holds the first, and the resync takes the full-replace branch
(deleting and re-inserting everything) instead of the no-op branch. -/
theorem C2_counterexample :
    ([zipA, zipB].Perm [zipB, zipA]) ∧
    hashData [zipA, zipB] ≠ hashData [zipB, zipA] ∧
    needsResync [zipA, zipB] [zipB, zipA] = true ∧
    (zipcodeResync [zipA, zipB] [zipB, zipA]).2 = ResyncBranch.fullReplace :=
  ⟨List.Perm.swap zipB zipA [], by decide, by decide, by decide⟩

/-- C2 amended: the fingerprint depends only on the *sequence* (not multiset)
of normalized (postalCode, feeType, isActive) triples — it is independent of
the address text, but not of row order.  Whenever the stored and incoming
datasets agree on that projected sequence in the same order (the store being
nonempty), the fingerprints are equal, `needsResync` is false and the resync
is the no-op branch: zero deletions and zero insertions. -/
theorem C2_fingerprint_projection (stored incoming : List ZipRow)
    (h : stored.map ZipRow.proj = incoming.map ZipRow.proj)
    (hne : stored ≠ []) :
    hashData stored = hashData incoming ∧
    needsResync stored incoming = false ∧
    zipcodeResync stored incoming = (stored, ResyncBranch.noop) := by
  have hh : hashData stored = hashData incoming := h
  have hlen : ¬ stored.length = 0 := by
    simpa [List.length_eq_zero] using hne
  refine ⟨hh, ?_, ?_⟩
  · simp [needsResync, hlen, hh]
  · simp [zipcodeResync, hlen, hh]

/-- Witness for C2 amended: same projected fields, different address text. -/
theorem C2_witness :
    hashData [zipA] = hashData [⟨"11111", "JEJU", true, "완전히 다른 주소"⟩] ∧
    needsResync [zipA] [⟨"11111", "JEJU", true, "완전히 다른 주소"⟩] = false ∧
    zipcodeResync [zipA] [⟨"11111", "JEJU", true, "완전히 다른 주소"⟩] =
      ([zipA], ResyncBranch.noop) :=
  C2_fingerprint_projection _ _ (by decide) (by decide)

/-! ## C4: the magic-row-count shortcut is not equivalent -/

theorem bigStored_length : bigStored.length = 11931 := by
  simp [bigStored]

/-- C4 counterexample: with 11931 stored rows whose content differs from the
incoming dataset, the magic-count strategy keeps the stale stored table while
the fingerprint strategy replaces it — the two final reference-code tables
differ (11931 rows versus 1). -/
theorem C4_counterexample :
    zipcodeResyncMagic bigStored [zipB] ≠ zipcodeResyncTable bigStored [zipB] := by
  have h0 : ¬ bigStored.length = 0 := by rw [bigStored_length]; decide
  have hmagic : zipcodeResyncMagic bigStored [zipB] = bigStored := by
    simp [zipcodeResyncMagic, h0, bigStored_length]
  have hhash : ¬ hashData bigStored = hashData [zipB] := by
    intro h
    have := congrArg List.length h
    simp [hashData, bigStored_length] at this
  have hfp : zipcodeResyncTable bigStored [zipB] = [zipB] := by
    simp only [zipcodeResyncTable, zipcodeResync, h0, if_false, hhash]
    simp [zipCreateMany, createManyWith]
  rw [hmagic, hfp]
  intro h
  have := congrArg List.length h
  rw [bigStored_length] at this
  cases this

/-- C4 amended: the shortcut is *not* behaviorally equivalent to the
fingerprint comparison in general (see the counterexample: stored count
exactly 11931 with differing content).  The two strategies do produce the
same final reference-code table whenever (a) the stored table is empty, or
(b) the stored count is not 11931 and the fingerprints differ (both take the
full-replace path), or (c) the stored table equals the incoming dataset
row-for-row and the incoming rows are pairwise distinct on the (postalCode,
juso) unique key. -/
theorem C4_agreement_cases (stored incoming : List ZipRow)
    (h : stored = [] ∨
         (stored.length ≠ 11931 ∧ hashData stored ≠ hashData incoming) ∨
         (stored = incoming ∧
           incoming.Pairwise (fun r s => ZipRow.conflict s r = false))) :
    zipcodeResyncMagic stored incoming = zipcodeResyncTable stored incoming := by
  rcases h with h | ⟨h1, h2⟩ | ⟨h1, h2⟩
  · subst h
    simp [zipcodeResyncMagic, zipcodeResyncTable, zipcodeResync]
  · by_cases h0 : stored.length = 0
    · simp [zipcodeResyncMagic, zipcodeResyncTable, zipcodeResync, h0]
    · simp [zipcodeResyncMagic, zipcodeResyncTable, zipcodeResync, h0, h1, h2]
  · subst h1
    by_cases h0 : stored.length = 0
    · simp [zipcodeResyncMagic, zipcodeResyncTable, zipcodeResync, h0]
    · have hins : zipCreateMany [] stored = stored := by
        unfold zipCreateMany
        rw [createManyWith_insert_all ZipRow.conflict [] stored
          (fun r _ => by simp) h2]
        simp
      by_cases h1 : stored.length = 11931
      · simp [zipcodeResyncMagic, zipcodeResyncTable, zipcodeResync, h0, h1]
      · simp [zipcodeResyncMagic, zipcodeResyncTable, zipcodeResync, h0, h1, hins]

/-- Witness for C4 amended: one stored row, a different incoming row — both
strategies wipe and reload, agreeing on the final table. -/
theorem C4_witness :
    zipcodeResyncMagic [zipA] [zipB] = zipcodeResyncTable [zipA] [zipB] :=
  C4_agreement_cases [zipA] [zipB] (Or.inr (Or.inl ⟨by decide, by decide⟩))

/-! ## C6: the empty-destination branch -/

/-- C6: with zero stored reference rows, resync is unconditional — the branch
taken is the empty-load branch, whose result does not depend on any
fingerprint (no hash is compared on this path, as the definition of
`zipcodeResync` shows), and all `N` incoming rows (pairwise distinct on the
(postalCode, juso) unique key, which `skipDuplicates` respects) are
inserted. -/
theorem C6_empty_load (incoming : List ZipRow)
    (hk : incoming.Pairwise (fun r s => ZipRow.conflict s r = false)) :
    zipcodeResync [] incoming = (incoming, ResyncBranch.emptyLoad) ∧
    (zipcodeResync [] incoming).1.length = incoming.length := by
  have hins : zipCreateMany [] incoming = incoming := by
    unfold zipCreateMany
    rw [createManyWith_insert_all ZipRow.conflict [] incoming (fun r _ => by simp) hk]
    simp
  constructor
  · simp [zipcodeResync, hins]
  · simp [zipcodeResync, hins]

/-- Witness for C6: two valid incoming rows against an empty table. -/
theorem C6_witness :
    zipcodeResync [] [zipA, zipB] = ([zipA, zipB], ResyncBranch.emptyLoad) ∧
    (zipcodeResync [] [zipA, zipB]).1.length = [zipA, zipB].length :=
  C6_empty_load [zipA, zipB] (by decide)

/-! ## C9: the full-replace branch never leaves a dangling reference -/

/-- C9: in the full-replace branch, every company address's `zipcodeId` is
set to null by the first statement — i.e. *before* any zipcode row is
deleted — and stays null through the deletion and the reload, so at no
intermediate point does a stored address reference a deleted reference row,
and after the branch completes no address references a zipcode id that does
not exist. -/
theorem C9_full_replace_no_dangling (st : SeedState) (newZips : List Zipcode) :
    ((fullReplaceStep1 st).companyAddresses.all
      (fun a => a.zipcodeId == none)) = true ∧
    ((fullReplaceStep2 (fullReplaceStep1 st)).companyAddresses.all
      (fun a => a.zipcodeId == none)) = true ∧
    ((fullReplace st newZips).companyAddresses.all
      (fun a => a.zipcodeId == none)) = true ∧
    ((fullReplace st newZips).companyAddresses.all (fun a =>
      match a.zipcodeId with
      | none => true
      | some zid => ((fullReplace st newZips).zipcodes.map (fun z => z.id)).contains zid))
      = true := by
  refine ⟨?_, ?_, ?_, ?_⟩ <;>
    simp [fullReplace, fullReplaceStep1, fullReplaceStep2, fullReplaceStep3,
      List.all_map, Function.comp]

/-! ## C7: a resolution miss is not an error -/

theorem list_any_eq_false_of (p : α → Bool) (t : List α)
    (h : ∀ s ∈ t, p s = false) : t.any p = false := by
  cases ha : t.any p with
  | false => rfl
  | true =>
    obtain ⟨x, hx, hpx⟩ := List.any_eq_true.mp ha
    rw [h x hx] at hpx
    cases hpx

theorem createManyWith_mem_insert (c : α → α → Bool) (t b : List α) (r : α) :
    r ∈ b → (∀ s ∈ t, c r s = false) → (∀ s ∈ b, s ≠ r → c r s = false) →
    r ∈ createManyWith c t b := by
  induction b generalizing t with
  | nil => intro hr _ _; cases hr
  | cons x xs ih =>
    intro hr hfree hbatch
    by_cases hxr : x = r
    · subst hxr
      have hany : t.any (c x) = false := list_any_eq_false_of _ t hfree
      obtain ⟨s, hs⟩ := createManyWith_append c (t ++ [x]) xs
      simp only [createManyWith, hany]
      simp only [Bool.false_eq_true, if_false]
      rw [hs]
      simp
    · have hr' : r ∈ xs := by
        rcases List.mem_cons.mp hr with h' | h'
        · exact absurd h'.symm hxr
        · exact h'
      have hbatch' : ∀ s ∈ xs, s ≠ r → c r s = false :=
        fun s hs => hbatch s (List.mem_cons_of_mem x hs)
      cases hx : t.any (c x) with
      | true =>
        simp only [createManyWith, hx, if_pos]
        exact ih t hr' hfree hbatch'
      | false =>
        have hfree' : ∀ s ∈ t ++ [x], c r s = false := by
          intro s hs
          rcases List.mem_append.mp hs with h' | h'
          · exact hfree s h'
          · have hsx : s = x := by simpa using h'
            rw [hsx]
            exact hbatch x (List.mem_cons_self x xs) hxr
        simp only [createManyWith, hx]
        simp only [Bool.false_eq_true, if_false]
        exact ih (t ++ [x]) hr' hfree' hbatch'

theorem resolveAddress_id (zips : List Zipcode) (a : CompanyAddress) :
    (resolveAddress zips a).id = a.id := by
  unfold resolveAddress
  cases zipMapGet zips (zipKey a.postalCode a.address) <;> rfl

/-- C7: for an incoming address record, a miss of its (postalCode, address)
composite key against the reference-code cache is never an error — the
resolver is a total function and the address row is still part of the
inserted batch, with its optional `zipcodeId` absent; on a hit the matched
reference row's id is attached.  The freshness hypotheses say the address id
is new (its row does not conflict with a stored or sibling row, which is
what `skipDuplicates` checks); under them the resolved row is present in the
store afterwards. -/
theorem C7_resolution_miss_not_error (b : Bundle) (st : SeedState)
    (a : CompanyAddress) (ha : a ∈ b.companyAddresses)
    (hfresh : ∀ s ∈ st.companyAddresses, (a.id == s.id) = false)
    (hsep : ∀ s ∈ b.companyAddresses.map (resolveAddress st.zipcodes),
      s ≠ resolveAddress st.zipcodes a → (a.id == s.id) = false) :
    resolveAddress st.zipcodes a ∈ (loadAddresses b st).companyAddresses ∧
    (zipMapGet st.zipcodes (zipKey a.postalCode a.address) = none →
      (resolveAddress st.zipcodes a).zipcodeId = none) ∧
    (∀ z, zipMapGet st.zipcodes (zipKey a.postalCode a.address) = some z →
      (resolveAddress st.zipcodes a).zipcodeId = some z.id) := by
  refine ⟨?_, ?_, ?_⟩
  · unfold loadAddresses createManyById
    apply createManyWith_mem_insert
    · exact List.mem_map_of_mem (resolveAddress st.zipcodes) ha
    · intro s hs
      show ((resolveAddress st.zipcodes a).id == s.id) = false
      rw [resolveAddress_id]
      exact hfresh s hs
    · intro s hs hne
      show ((resolveAddress st.zipcodes a).id == s.id) = false
      rw [resolveAddress_id]
      exact hsep s hs hne
  · intro hmiss
    unfold resolveAddress
    rw [hmiss]
  · intro z hhit
    unfold resolveAddress
    rw [hhit]

/-- Witness for C7: against a store holding one reference row, the address
with no matching key is still inserted, with no reference attached. -/
theorem C7_witness :
    resolveAddress demoStore.zipcodes demoAddrMiss ∈
      (loadAddresses demoAddrBundle demoStore).companyAddresses ∧
    (resolveAddress demoStore.zipcodes demoAddrMiss).zipcodeId = none := by
  have h := C7_resolution_miss_not_error demoAddrBundle demoStore demoAddrMiss
    (by decide) (by intro s hs; cases hs) (by decide)
  exact ⟨h.1, h.2.1 (by decide)⟩

/-! ## C1: the grouped-totals recomputation -/

theorem lookupA_addTotal (acc : List (String × Int)) (oid : String) (amt : Int)
    (key : String) :
    lookupA (addTotal acc oid amt) key =
      if key = oid then some ((lookupA acc oid).getD 0 + amt)
      else lookupA acc key := by
  induction acc with
  | nil =>
    by_cases h : key = oid
    · subst h
      simp [addTotal, lookupA]
    · simp [addTotal, lookupA, h, Ne.symm h]
  | cons p rest ih =>
    obtain ⟨k, v⟩ := p
    by_cases hk : k = oid
    · subst hk
      by_cases h : key = k
      · subst h
        simp [addTotal, lookupA]
      · simp [addTotal, lookupA, h, Ne.symm h]
    · by_cases h : k = key
      · subst h
        simp [addTotal, lookupA, hk, Ne.symm hk, ih]
      · simp [addTotal, lookupA, hk, h, ih]

theorem addTotal_keys_mem (acc : List (String × Int)) (oid : String) (amt : Int)
    (key : String) :
    key ∈ (addTotal acc oid amt).map Prod.fst ↔
      key ∈ acc.map Prod.fst ∨ key = oid := by
  induction acc with
  | nil => simp [addTotal, eq_comm]
  | cons p rest ih =>
    obtain ⟨k, v⟩ := p
    by_cases hk : k = oid
    · subst hk
      simp [addTotal, List.mem_cons]
      tauto
    · simp [addTotal, hk, List.mem_cons, ih]
      tauto

theorem addTotal_keys_nodup (acc : List (String × Int)) (oid : String) (amt : Int)
    (h : (acc.map Prod.fst).Nodup) :
    ((addTotal acc oid amt).map Prod.fst).Nodup := by
  induction acc with
  | nil => simp [addTotal]
  | cons p rest ih =>
    obtain ⟨k, v⟩ := p
    simp only [List.map_cons, List.nodup_cons] at h
    by_cases hk : k = oid
    · subst hk
      simpa [addTotal, List.nodup_cons] using h
    · simp only [addTotal, if_neg hk, List.map_cons, List.nodup_cons]
      refine ⟨?_, ih h.2⟩
      rw [addTotal_keys_mem]
      rintro (hmem | rfl)
      · exact h.1 hmem
      · exact hk rfl

theorem lookupA_none_of_not_mem (l : List (String × Int)) (key : String)
    (h : key ∉ l.map Prod.fst) : lookupA l key = none := by
  induction l with
  | nil => rfl
  | cons p rest ih =>
    obtain ⟨k, v⟩ := p
    simp only [List.map_cons, List.mem_cons] at h
    push_neg at h
    rw [lookupA, if_neg (fun hh => h.1 hh.symm)]
    exact ih h.2

theorem lookupLast_none_of_not_mem (l : List (String × Int)) (key : String)
    (h : key ∉ l.map Prod.fst) : lookupLast l key = none := by
  induction l with
  | nil => rfl
  | cons p rest ih =>
    obtain ⟨k, v⟩ := p
    simp only [List.map_cons, List.mem_cons] at h
    push_neg at h
    rw [lookupLast, ih h.2, if_neg (fun hh => h.1 hh.symm)]

theorem lookupLast_eq_lookupA (l : List (String × Int))
    (h : (l.map Prod.fst).Nodup) (key : String) :
    lookupLast l key = lookupA l key := by
  induction l with
  | nil => rfl
  | cons p rest ih =>
    obtain ⟨k, v⟩ := p
    simp only [List.map_cons, List.nodup_cons] at h
    simp only [lookupLast, lookupA, ih h.2]
    by_cases hk : k = key
    · subst hk
      rw [lookupA_none_of_not_mem rest k h.1]
    · cases hrest : lookupA rest key with
      | none => simp [hk]
      | some w => simp [hk]

theorem itemSum_zero_of_none (items : List OrderRequestItem) (key : String)
    (h : items.any (fun it => it.orderRequestId == key) = false) :
    itemSum items key = 0 := by
  have hfil : items.filter (fun it => it.orderRequestId == key) = [] := by
    rw [List.filter_eq_nil_iff]
    intro a ha
    have := List.any_eq_false.mp h a ha
    simpa using this
  simp [itemSum, hfil]

theorem orderTotals_loop (is : List OrderRequestItem) :
    ∀ acc key,
      lookupA (is.foldl
        (fun acc it => addTotal acc it.orderRequestId (it.price * it.quantity)) acc) key =
      if is.any (fun it => it.orderRequestId == key)
      then some ((lookupA acc key).getD 0 + itemSum is key)
      else lookupA acc key := by
  induction is with
  | nil => intro acc key; simp [itemSum]
  | cons it rest ih =>
    intro acc key
    simp only [List.foldl_cons]
    rw [ih]
    by_cases hm : it.orderRequestId = key
    · have hone : (it.orderRequestId == key) = true := by simp [hm]
      have hany : (it :: rest).any (fun x => x.orderRequestId == key) = true := by
        simp [List.any_cons, hone]
      have hsum : itemSum (it :: rest) key =
          it.price * it.quantity + itemSum rest key := by
        simp [itemSum, List.filter_cons, hone]
      have hacc : lookupA (addTotal acc it.orderRequestId (it.price * it.quantity)) key =
          some ((lookupA acc key).getD 0 + it.price * it.quantity) := by
        rw [lookupA_addTotal, if_pos hm.symm, hm]
      cases hr : rest.any (fun x => x.orderRequestId == key) with
      | true =>
        rw [if_pos rfl, if_pos hany, hacc, hsum]
        simp [add_assoc]
      | false =>
        simp only [Bool.false_eq_true, if_false]
        rw [if_pos hany, hacc, hsum, itemSum_zero_of_none rest key hr]
        simp
    · have hone : (it.orderRequestId == key) = false := by simp [hm]
      have hany : (it :: rest).any (fun x => x.orderRequestId == key) =
          rest.any (fun x => x.orderRequestId == key) := by
        simp [List.any_cons, hone]
      have hsum : itemSum (it :: rest) key = itemSum rest key := by
        simp [itemSum, List.filter_cons, hone]
      have hacc : lookupA (addTotal acc it.orderRequestId (it.price * it.quantity)) key =
          lookupA acc key := by
        rw [lookupA_addTotal, if_neg (fun hh => hm hh.symm)]
      rw [hany, hsum, hacc]

theorem lookupA_orderTotals (items : List OrderRequestItem) (key : String) :
    lookupA (orderTotals items) key =
      if items.any (fun it => it.orderRequestId == key)
      then some (itemSum items key) else none := by
  unfold orderTotals
  rw [orderTotals_loop]
  cases h : items.any (fun it => it.orderRequestId == key) <;> simp [lookupA]

theorem orderTotals_keys_nodup (items : List OrderRequestItem) :
    ((orderTotals items).map Prod.fst).Nodup := by
  suffices h : ∀ acc : List (String × Int), (acc.map Prod.fst).Nodup →
      ((items.foldl
        (fun acc it => addTotal acc it.orderRequestId (it.price * it.quantity)) acc).map
          Prod.fst).Nodup by
    exact h [] (by simp)
  induction items with
  | nil => intro acc hacc; simpa using hacc
  | cons it rest ih =>
    intro acc hacc
    simp only [List.foldl_cons]
    exact ih _ (addTotal_keys_nodup acc _ _ hacc)

theorem updByTotals_id (totals : List (String × Int)) (o : OrderRequest) :
    (updByTotals totals o).id = o.id := by
  unfold updByTotals
  cases lookupLast totals o.id <;> rfl

theorem updByTotals_cons (k : String) (v : Int) (rest : List (String × Int))
    (o : OrderRequest) :
    updByTotals rest (if o.id = k then { o with totalAmount := v } else o) =
      updByTotals ((k, v) :: rest) o := by
  by_cases hid : o.id = k
  · rw [if_pos hid]
    unfold updByTotals
    have hsame : ({ o with totalAmount := v } : OrderRequest).id = o.id := rfl
    rw [hsame]
    simp only [lookupLast]
    cases hrest : lookupLast rest o.id with
    | some w => rfl
    | none =>
      rw [if_pos (show k = o.id from hid.symm)]
      rfl
  · rw [if_neg hid]
    unfold updByTotals
    simp only [lookupLast]
    cases hrest : lookupLast rest o.id with
    | some w => rfl
    | none => rw [if_neg (fun hh : k = o.id => hid hh.symm)]

theorem applyTotals_eq_map (totals : List (String × Int)) :
    ∀ orders : List OrderRequest,
      applyTotals orders totals = orders.map (updByTotals totals) := by
  induction totals with
  | nil =>
    intro orders
    have h0 : updByTotals ([] : List (String × Int)) = fun o => o := by
      funext o; rfl
    simp [applyTotals, h0]
  | cons p rest ih =>
    obtain ⟨k, v⟩ := p
    intro orders
    have hstep : applyTotals orders ((k, v) :: rest) =
        applyTotals (orders.map (fun o =>
          if o.id = k then { o with totalAmount := v } else o)) rest := rfl
    rw [hstep, ih, List.map_map]
    apply List.map_congr_left
    intro o _
    simp only [Function.comp]
    exact updByTotals_cons k v rest o

theorem updByTotals_orderTotals (items : List OrderRequestItem) (o : OrderRequest) :
    updByTotals (orderTotals items) o =
      if items.any (fun it => it.orderRequestId == o.id)
      then setTotal o (itemSum items o.id) else o := by
  unfold updByTotals
  rw [lookupLast_eq_lookupA _ (orderTotals_keys_nodup items), lookupA_orderTotals]
  cases h : items.any (fun it => it.orderRequestId == o.id) <;> simp [h]

theorem any_filter_of_imp (l : List OrderRequestItem)
    (p q : OrderRequestItem → Bool) (h : ∀ x, q x = true → p x = true) :
    (l.filter p).any q = l.any q := by
  induction l with
  | nil => rfl
  | cons x xs ih =>
    by_cases hp : p x = true
    · simp [List.filter_cons, hp, List.any_cons, ih]
    · have hq : q x = false := by
        cases hqx : q x with
        | false => rfl
        | true => exact absurd (h x hqx) hp
      simp [List.filter_cons, hp, List.any_cons, hq, ih]

theorem filter_filter_of_imp (l : List OrderRequestItem)
    (p q : OrderRequestItem → Bool) (h : ∀ x, q x = true → p x = true) :
    (l.filter p).filter q = l.filter q := by
  induction l with
  | nil => rfl
  | cons x xs ih =>
    by_cases hp : p x = true
    · simp [List.filter_cons, hp, ih]
    · have hq : q x = false := by
        cases hqx : q x with
        | false => rfl
        | true => exact absurd (h x hqx) hp
      simp [List.filter_cons, hp, hq, ih]

theorem recomputeTotals_eq_map (ids : List String) (items : List OrderRequestItem)
    (orders : List OrderRequest) :
    recomputeTotals ids items orders =
      orders.map (updByTotals
        (orderTotals (items.filter (fun it => ids.contains it.orderRequestId)))) := by
  unfold recomputeTotals
  exact applyTotals_eq_map _ orders

/-- C1: after the recomputation step, every envelope among the queried ids
whose persisted total was the fresh-creation value 0 (as `seed.ts` sets it)
or that has at least one line item ends up with `totalAmount` equal to the
sum `Σ price * quantity` over *all* line items currently belonging to it —
a full recomputation from the current line-item set, not an incremental
delta. -/
theorem C1_totalAmount_recomputed (ids : List String)
    (items : List OrderRequestItem) (orders : List OrderRequest)
    (o : OrderRequest) (ho : o ∈ orders) (hid : ids.contains o.id = true)
    (hz : o.totalAmount = 0 ∨ items.any (fun it => it.orderRequestId == o.id) = true) :
    { o with totalAmount := itemSum items o.id } ∈ recomputeTotals ids items orders := by
  rw [recomputeTotals_eq_map]
  refine List.mem_map.mpr ⟨o, ho, ?_⟩
  rw [updByTotals_orderTotals]
  have himp : ∀ x : OrderRequestItem, (x.orderRequestId == o.id) = true →
      (ids.contains x.orderRequestId) = true := by
    intro x hx
    have : x.orderRequestId = o.id := by simpa using hx
    rw [this]
    exact hid
  have hA : (items.filter (fun it => ids.contains it.orderRequestId)).any
      (fun it => it.orderRequestId == o.id) =
      items.any (fun it => it.orderRequestId == o.id) :=
    any_filter_of_imp items _ _ himp
  have hS : itemSum (items.filter (fun it => ids.contains it.orderRequestId)) o.id =
      itemSum items o.id := by
    unfold itemSum
    rw [filter_filter_of_imp items _ _ himp]
  cases hany : items.any (fun it => it.orderRequestId == o.id) with
  | true =>
    rw [hA, hany, if_pos rfl, hS]
    rfl
  | false =>
    rw [hA, hany]
    simp only [Bool.false_eq_true, if_false]
    have hz0 : o.totalAmount = 0 := by
      rcases hz with h | h
      · exact h
      · rw [hany] at h; cases h
    rw [itemSum_zero_of_none items o.id hany]
    cases o with
    | mk i r c s t =>
      simp only [OrderRequest.mk.injEq] at hz0 ⊢
      simp_all

/-- Witness for C1: the claimed scenario — line items (price 1000, qty 2) and
(price 500, qty 3) on a fresh envelope — ends with `totalAmount = 3500`. -/
theorem C1_witness :
    ({ demoOrder with totalAmount := 3500 } : OrderRequest) ∈
      recomputeTotals orderRequestIds demoItems [demoOrder] := by
  have h := C1_totalAmount_recomputed orderRequestIds demoItems [demoOrder] demoOrder
    (by decide) (by decide) (Or.inl rfl)
  have hsum : itemSum demoItems demoOrder.id = 3500 := by decide
  rw [hsum] at h
  exact h

/-! ## Inversion of the loader's monadic steps -/

theorem exceptBindOkEq (a : α) (f : α → Except String β) :
    (Except.ok a : Except String α) >>= f = f a := rfl

theorem exceptBindErrEq (e : String) (f : α → Except String β) :
    (Except.error e : Except String α) >>= f = Except.error e := rfl

theorem exceptMapOkEq (f : α → β) (a : α) :
    f <$> (Except.ok a : Except String α) = Except.ok (f a) := rfl

theorem exceptMapErrEq (f : α → β) (e : String) :
    f <$> (Except.error e : Except String α) = Except.error e := rfl

theorem stampCompany_ok (tc : Company) (cs : List Category) :
    stampCompany (some tc) cs =
      Except.ok (cs.map (fun c => { c with companyId := tc.id })) := by
  induction cs with
  | nil => rfl
  | cons c cs ih =>
    rw [stampCompany, ih]
    rfl

theorem loadCategories_ok (b : Bundle) (st st' : SeedState)
    (h : loadCategories b st = Except.ok st') :
    ∃ tc, b.companies.head? = some tc ∧ b.categories ≠ [] ∧
      st' = { st with categories := (createManyWith Category.conflict st.categories
        (b.categories.map (fun c => { c with companyId := tc.id }))) } := by
  cases htc : b.companies.head? with
  | none =>
    exfalso
    unfold loadCategories at h
    rw [htc] at h
    cases hcats : b.categories with
    | nil =>
      rw [hcats] at h
      simp [stampCompany, exceptBindOkEq, exceptBindErrEq,
        exceptMapOkEq, exceptMapErrEq] at h
    | cons c cs =>
      rw [hcats] at h
      simp [stampCompany, exceptBindOkEq, exceptBindErrEq,
        exceptMapOkEq, exceptMapErrEq] at h
  | some tc =>
    unfold loadCategories at h
    rw [htc, stampCompany_ok, exceptBindOkEq] at h
    cases hempty : b.categories.isEmpty with
    | true => rw [hempty] at h; simp at h
    | false =>
      rw [hempty] at h
      simp only [Bool.false_eq_true, if_false, pure, Except.pure, Except.ok.injEq] at h
      refine ⟨tc, rfl, ?_, h.symm⟩
      intro hnil
      rw [hnil] at hempty
      simp at hempty

theorem loadSubCategories_ok (b : Bundle) (st st' : SeedState)
    (h : loadSubCategories b st = Except.ok st') :
    ∃ tc, b.companies.head? = some tc ∧ b.subCategories ≠ [] ∧
      st' = { st with categories := (createManyWith Category.conflict st.categories
        (b.subCategories.map (fun c => { c with companyId := tc.id }))) } := by
  cases htc : b.companies.head? with
  | none =>
    exfalso
    unfold loadSubCategories at h
    rw [htc] at h
    cases hcats : b.subCategories with
    | nil =>
      rw [hcats] at h
      simp [stampCompany, exceptBindOkEq, exceptBindErrEq,
        exceptMapOkEq, exceptMapErrEq] at h
    | cons c cs =>
      rw [hcats] at h
      simp [stampCompany, exceptBindOkEq, exceptBindErrEq,
        exceptMapOkEq, exceptMapErrEq] at h
  | some tc =>
    unfold loadSubCategories at h
    rw [htc, stampCompany_ok, exceptBindOkEq] at h
    cases hempty : b.subCategories.isEmpty with
    | true => rw [hempty] at h; simp at h
    | false =>
      rw [hempty] at h
      simp only [Bool.false_eq_true, if_false, pure, Except.pure, Except.ok.injEq] at h
      refine ⟨tc, rfl, ?_, h.symm⟩
      intro hnil
      rw [hnil] at hempty
      simp at hempty

theorem loadOrderRequests_ok (b : Bundle) (st st' : SeedState)
    (h : loadOrderRequests b st = Except.ok st') :
    ∃ batch, mkOrderRequests b = Except.ok batch ∧
      st' = { st with orderRequests :=
        (createManyById (fun o => o.id) st.orderRequests batch) } := by
  unfold loadOrderRequests at h
  cases hb : mkOrderRequests b with
  | error e => rw [hb, exceptBindErrEq] at h; exact Except.noConfusion h
  | ok batch =>
    rw [hb, exceptBindOkEq] at h
    simp only [pure, Except.pure, Except.ok.injEq] at h
    exact ⟨batch, rfl, h.symm⟩

theorem loadOrderRequestItems_ok (b : Bundle) (st st' : SeedState)
    (h : loadOrderRequestItems b st = Except.ok st') :
    ∃ batch items₁, mkOrderRequestItems b = Except.ok batch ∧
      createItems st.orderRequestItems (itemsToCreate st.orderRequestItems batch) =
        Except.ok items₁ ∧
      st' = { st with orderRequestItems := items₁ } := by
  unfold loadOrderRequestItems at h
  cases hb : mkOrderRequestItems b with
  | error e => rw [hb, exceptBindErrEq] at h; exact Except.noConfusion h
  | ok batch =>
    rw [hb, exceptBindOkEq] at h
    cases hc : createItems st.orderRequestItems
        (itemsToCreate st.orderRequestItems batch) with
    | error e => rw [hc, exceptBindErrEq] at h; exact Except.noConfusion h
    | ok items₁ =>
      rw [hc, exceptBindOkEq] at h
      simp only [pure, Except.pure, Except.ok.injEq] at h
      exact ⟨batch, items₁, rfl, hc, h.symm⟩

theorem runLoad_shape (b : Bundle) (st st' : SeedState)
    (h : runLoad b st = Except.ok st') :
    ∃ st3 st4 st8 st9,
      loadCategories b (loadAddresses b (loadCompanies b st)) = Except.ok st3 ∧
      loadSubCategories b st3 = Except.ok st4 ∧
      loadOrderRequests b (loadCarts b (loadProducts b (loadUsers b st4))) =
        Except.ok st8 ∧
      loadOrderRequestItems b st8 = Except.ok st9 ∧
      st' = loadTotals st9 := by
  unfold runLoad at h
  cases h3 : loadCategories b (loadAddresses b (loadCompanies b st)) with
  | error e => rw [h3, exceptBindErrEq] at h; exact Except.noConfusion h
  | ok st3 =>
    rw [h3, exceptBindOkEq] at h
    cases h4 : loadSubCategories b st3 with
    | error e => rw [h4, exceptBindErrEq] at h; exact Except.noConfusion h
    | ok st4 =>
      rw [h4, exceptBindOkEq] at h
      cases h8 : loadOrderRequests b (loadCarts b (loadProducts b (loadUsers b st4))) with
      | error e => rw [h8, exceptBindErrEq] at h; exact Except.noConfusion h
      | ok st8 =>
        rw [h8, exceptBindOkEq] at h
        cases h9 : loadOrderRequestItems b st8 with
        | error e => rw [h9, exceptBindErrEq] at h; exact Except.noConfusion h
        | ok st9 =>
          rw [h9, exceptBindOkEq] at h
          simp only [pure, Except.pure, Except.ok.injEq] at h
          exact ⟨st3, st4, st8, st9, rfl, h4, h8, h9, h.symm⟩

/-! ## C8: category rows are stamped with the resolved organization -/

/-- C8: whenever the load succeeds, every category or sub-category row it
inserted carries the resolved seed organization's id (`companies[0].id`),
stamped before insertion — a row of the final store is either a pre-existing
row or one whose `companyId` is the resolved id, never the caller-supplied
organization id when that differs. -/
theorem C8_categories_stamped (b : Bundle) (st st' : SeedState)
    (h : runLoad b st = Except.ok st') :
    ∃ tc, b.companies.head? = some tc ∧
      ∀ c ∈ st'.categories, c ∈ st.categories ∨ c.companyId = tc.id := by
  obtain ⟨st3, st4, st8, st9, h3, h4, h8, h9, hst'⟩ := runLoad_shape b st st' h
  obtain ⟨tc, htc, _, hst3⟩ := loadCategories_ok _ _ _ h3
  obtain ⟨tc2, htc2, _, hst4⟩ := loadSubCategories_ok _ _ _ h4
  rw [htc] at htc2
  injection htc2 with htceq
  subst htceq
  obtain ⟨reqB, hreq, hst8⟩ := loadOrderRequests_ok _ _ _ h8
  obtain ⟨itemB, items₁, hib, hci, hst9⟩ := loadOrderRequestItems_ok _ _ _ h9
  refine ⟨tc, htc, ?_⟩
  intro c hc
  have hcats : st'.categories =
      createManyWith Category.conflict
        (createManyWith Category.conflict st.categories
          (b.categories.map (fun x => { x with companyId := tc.id })))
        (b.subCategories.map (fun x => { x with companyId := tc.id })) := by
    subst hst' hst9 hst8 hst4 hst3
    simp [loadTotals, loadCarts, loadProducts, loadUsers, loadAddresses, loadCompanies]
  rw [hcats] at hc
  rcases createManyWith_mem_or _ _ _ c hc with h1 | h1
  · rcases createManyWith_mem_or _ _ _ c h1 with h2 | h2
    · exact Or.inl h2
    · obtain ⟨c0, _, rfl⟩ := List.mem_map.mp h2
      exact Or.inr rfl
  · obtain ⟨c0, _, rfl⟩ := List.mem_map.mp h1
    exact Or.inr rfl

/-- Witness for C8: running the demo load against the empty-but-for-zipcodes
store; the bundle's category rows deliberately carry a different (wrong)
tenant id. -/
theorem C8_witness :
    ∃ tc, demoBundle.companies.head? = some tc ∧
      ∀ c ∈ (okOr demoStore (runLoad demoBundle demoStore)).categories,
        c ∈ demoStore.categories ∨ c.companyId = tc.id :=
  C8_categories_stamped demoBundle demoStore
    (okOr demoStore (runLoad demoBundle demoStore)) (by rfl)

/-! ## C3: running the load twice inserts nothing the second time -/

theorem categoryConflictRefl : ∀ a : Category, Category.conflict a a = true := by
  intro a
  simp [Category.conflict]

theorem createManyById_idem (key : α → String) (t b : List α) :
    createManyById key (createManyById key t b) b = createManyById key t b :=
  createManyWith_idem _ (fun a => by simp) t b

theorem createManyById_conflict_mem (key : α → String) (t b : List α) :
    ∀ r ∈ b, (createManyById key t b).any (fun s => key r == key s) = true := by
  intro r hr
  exact createManyWith_conflict_mem _ (fun a => by simp) t b r hr

theorem createManyById_skip_all (key : α → String) (t b : List α)
    (h : ∀ r ∈ b, t.any (fun s => key r == key s) = true) :
    createManyById key t b = t :=
  createManyWith_skip_all _ t b h

theorem createItems_ok_mem (l : List OrderRequestItem) :
    ∀ t out, createItems t l = Except.ok out →
      (∀ x ∈ t, x ∈ out) ∧ (∀ x ∈ l, x ∈ out) := by
  induction l with
  | nil =>
    intro t out h
    simp only [createItems, Except.ok.injEq] at h
    subst h
    exact ⟨fun x hx => hx, fun x hx => absurd hx (List.not_mem_nil x)⟩
  | cons r rs ih =>
    intro t out h
    cases hc : t.any (OrderRequestItem.conflict r) with
    | true =>
      rw [createItems, hc] at h
      simp at h
    | false =>
      rw [createItems, hc] at h
      simp only [Bool.false_eq_true, if_false] at h
      obtain ⟨h1, h2⟩ := ih (t ++ [r]) out h
      refine ⟨fun x hx => h1 x (List.mem_append.mpr (Or.inl hx)), ?_⟩
      intro x hx
      rcases List.mem_cons.mp hx with rfl | hx'
      · exact h1 x (List.mem_append.mpr (Or.inr (List.mem_singleton.mpr rfl)))
      · exact h2 x hx'

theorem setTotal_id (o : OrderRequest) (v : Int) : (setTotal o v).id = o.id := rfl

theorem updByTotals_idem (T : List (String × Int)) (o : OrderRequest) :
    updByTotals T (updByTotals T o) = updByTotals T o := by
  cases hl : lookupLast T o.id with
  | none => simp [updByTotals, hl]
  | some v =>
    simp only [updByTotals, hl, setTotal_id]
    rfl

theorem recomputeTotals_idem (ids : List String) (items : List OrderRequestItem)
    (orders : List OrderRequest) :
    recomputeTotals ids items (recomputeTotals ids items orders) =
      recomputeTotals ids items orders := by
  rw [recomputeTotals_eq_map, recomputeTotals_eq_map, List.map_map]
  apply List.map_congr_left
  intro o _
  simp only [Function.comp]
  exact updByTotals_idem _ o

theorem listAnyCongr (l : List α) (p q : α → Bool) (h : ∀ x, p x = q x) :
    l.any p = l.any q := by
  induction l with
  | nil => rfl
  | cons x xs ih => simp [List.any_cons, h x, ih]

theorem recomputeTotals_any_id (ids : List String) (items : List OrderRequestItem)
    (orders : List OrderRequest) (key : String) :
    (recomputeTotals ids items orders).any (fun s => key == s.id) =
      orders.any (fun s => key == s.id) := by
  rw [recomputeTotals_eq_map, List.any_map]
  exact listAnyCongr _ _ _ (fun o => by simp [Function.comp, updByTotals_id])

/-- C3: if a dependency-ordered load of a bundle succeeds, running the very
same load again from the resulting state reproduces that state exactly —
the second run inserts zero new rows for every entity type (companies,
company addresses, categories, sub-categories, users, products, carts,
order requests, order-request items) and leaves every existing row
untouched. -/
theorem C3_load_idempotent (b : Bundle) (st st' : SeedState)
    (h : runLoad b st = Except.ok st') :
    runLoad b st' = Except.ok st' := by
  obtain ⟨st3, st4, st8, st9, h3, h4, h8, h9, hst'⟩ := runLoad_shape b st st' h
  obtain ⟨tc, htc, hcne, hst3⟩ := loadCategories_ok _ _ _ h3
  obtain ⟨tc2, htc2, hsne, hst4⟩ := loadSubCategories_ok _ _ _ h4
  rw [htc] at htc2
  injection htc2 with htceq
  subst htceq
  obtain ⟨reqB, hreq, hst8⟩ := loadOrderRequests_ok _ _ _ h8
  obtain ⟨itemB, items₁, hib, hci, hst9⟩ := loadOrderRequestItems_ok _ _ _ h9
  -- the components of the state after the first run
  have hzip : st'.zipcodes = st.zipcodes := by
    rw [hst', hst9, hst8, hst4, hst3]
    simp [loadTotals, loadCarts, loadProducts, loadUsers, loadAddresses, loadCompanies]
  have hcomp : st'.companies =
      createManyById (fun c => c.id) st.companies b.companies := by
    rw [hst', hst9, hst8, hst4, hst3]
    simp [loadTotals, loadCarts, loadProducts, loadUsers, loadAddresses, loadCompanies]
  have haddr : st'.companyAddresses =
      createManyById (fun a => a.id) st.companyAddresses
        (b.companyAddresses.map (resolveAddress st.zipcodes)) := by
    rw [hst', hst9, hst8, hst4, hst3]
    simp [loadTotals, loadCarts, loadProducts, loadUsers, loadAddresses, loadCompanies]
  have hcat : st'.categories =
      createManyWith Category.conflict
        (createManyWith Category.conflict st.categories
          (b.categories.map (fun x => { x with companyId := tc.id })))
        (b.subCategories.map (fun x => { x with companyId := tc.id })) := by
    rw [hst', hst9, hst8, hst4, hst3]
    simp [loadTotals, loadCarts, loadProducts, loadUsers, loadAddresses, loadCompanies]
  have husers : st'.users = createManyById (fun u => u.id) st.users b.users := by
    rw [hst', hst9, hst8, hst4, hst3]
    simp [loadTotals, loadCarts, loadProducts, loadUsers, loadAddresses, loadCompanies]
  have hprods : st'.products =
      createManyById (fun p => p.id) st.products b.products := by
    rw [hst', hst9, hst8, hst4, hst3]
    simp [loadTotals, loadCarts, loadProducts, loadUsers, loadAddresses, loadCompanies]
  have hcarts : st'.carts = createManyById (fun c => c.id) st.carts b.carts := by
    rw [hst', hst9, hst8, hst4, hst3]
    simp [loadTotals, loadCarts, loadProducts, loadUsers, loadAddresses, loadCompanies]
  have hitems : st'.orderRequestItems = items₁ := by
    rw [hst', hst9]
    simp [loadTotals]
  have hord : st'.orderRequests =
      recomputeTotals orderRequestIds items₁
        (createManyById (fun o => o.id) st.orderRequests reqB) := by
    rw [hst', hst9, hst8, hst4, hst3]
    simp [loadTotals, loadCarts, loadProducts, loadUsers, loadAddresses, loadCompanies]
  have hst8items : st8.orderRequestItems = st.orderRequestItems := by
    rw [hst8, hst4, hst3]
    simp [loadCarts, loadProducts, loadUsers, loadAddresses, loadCompanies]
  -- second run, step by step
  have eComp : loadCompanies b st' = st' := by
    unfold loadCompanies
    rw [hcomp, createManyById_idem, ← hcomp]
  have eAddr : loadAddresses b st' = st' := by
    unfold loadAddresses
    rw [hzip, haddr, createManyById_idem, ← haddr, ← hzip]
  have eCat : loadCategories b st' = Except.ok st' := by
    unfold loadCategories
    rw [htc, stampCompany_ok, exceptBindOkEq]
    have hempty : b.categories.isEmpty = false := by
      cases hbc : b.categories with
      | nil => exact absurd hbc hcne
      | cons x xs => rfl
    rw [hempty]
    simp only [Bool.false_eq_true, if_false]
    have hfix : createManyWith Category.conflict st'.categories
        (b.categories.map (fun x => { x with companyId := tc.id })) =
        st'.categories := by
      rw [hcat]
      apply createManyWith_skip_all
      intro r hr
      exact createManyWith_any_mono _ _ _ _
        (createManyWith_conflict_mem _ categoryConflictRefl st.categories _ r hr)
    rw [hfix]
    rfl
  have eSub : loadSubCategories b st' = Except.ok st' := by
    unfold loadSubCategories
    rw [htc, stampCompany_ok, exceptBindOkEq]
    have hempty : b.subCategories.isEmpty = false := by
      cases hbc : b.subCategories with
      | nil => exact absurd hbc hsne
      | cons x xs => rfl
    rw [hempty]
    simp only [Bool.false_eq_true, if_false]
    have hfix : createManyWith Category.conflict st'.categories
        (b.subCategories.map (fun x => { x with companyId := tc.id })) =
        st'.categories := by
      rw [hcat]
      apply createManyWith_skip_all
      intro r hr
      exact createManyWith_conflict_mem _ categoryConflictRefl _ _ r hr
    rw [hfix]
    rfl
  have eUsers : loadUsers b st' = st' := by
    unfold loadUsers
    rw [husers, createManyById_idem, ← husers]
  have eProds : loadProducts b st' = st' := by
    unfold loadProducts
    rw [hprods, createManyById_idem, ← hprods]
  have eCarts : loadCarts b st' = st' := by
    unfold loadCarts
    rw [hcarts, createManyById_idem, ← hcarts]
  have eReq : loadOrderRequests b st' = Except.ok st' := by
    unfold loadOrderRequests
    rw [hreq, exceptBindOkEq]
    have hfix : createManyById (fun o => o.id) st'.orderRequests reqB =
        st'.orderRequests := by
      apply createManyById_skip_all
      intro r hr
      rw [hord, recomputeTotals_any_id]
      exact createManyById_conflict_mem _ st.orderRequests reqB r hr
    rw [hfix]
    rfl
  have eItems : loadOrderRequestItems b st' = Except.ok st' := by
    unfold loadOrderRequestItems
    rw [hib, exceptBindOkEq]
    have hsub := createItems_ok_mem _ _ _ hci
    have hidin : ∀ it ∈ itemB, ∃ s, s ∈ items₁ ∧ s.id = it.id := by
      intro it hit
      by_cases hf : it ∈ itemsToCreate st8.orderRequestItems itemB
      · exact ⟨it, hsub.2 it hf, rfl⟩
      · have hp : (!((st8.orderRequestItems.filter
            (fun x => itemB.any (fun r => r.id == x.id))).map
              (fun x => x.id)).contains it.id) = false := by
          cases hq : (!((st8.orderRequestItems.filter
              (fun x => itemB.any (fun r => r.id == x.id))).map
                (fun x => x.id)).contains it.id) with
          | false => rfl
          | true =>
            exfalso
            exact hf (List.mem_filter.mpr ⟨hit, hq⟩)
        have hcont : ((st8.orderRequestItems.filter
            (fun x => itemB.any (fun r => r.id == x.id))).map
              (fun x => x.id)).contains it.id = true := by
          simpa using hp
        have hmem : it.id ∈ (st8.orderRequestItems.filter
            (fun x => itemB.any (fun r => r.id == x.id))).map (fun x => x.id) := by
          simpa using hcont
        obtain ⟨s, hsf, hsid⟩ := List.mem_map.mp hmem
        exact ⟨s, hsub.1 s (List.mem_filter.mp hsf).1, hsid⟩
    have hnil : itemsToCreate st'.orderRequestItems itemB = [] := by
      unfold itemsToCreate
      rw [List.filter_eq_nil_iff]
      intro it hit
      obtain ⟨s, hs, hsid⟩ := hidin it hit
      have hsfil : s ∈ st'.orderRequestItems.filter
          (fun x => itemB.any (fun r => r.id == x.id)) := by
        rw [List.mem_filter]
        refine ⟨by rw [hitems]; exact hs, ?_⟩
        exact List.any_eq_true.mpr ⟨it, hit, by simp [hsid]⟩
      have hmem : it.id ∈ (st'.orderRequestItems.filter
          (fun x => itemB.any (fun r => r.id == x.id))).map (fun x => x.id) :=
        List.mem_map.mpr ⟨s, hsfil, hsid⟩
      simp [hmem]
    rw [hnil]
    show (Except.ok st'.orderRequestItems >>= fun items =>
      pure { st' with orderRequestItems := items }) = Except.ok st'
    rw [exceptBindOkEq]
    rfl
  have eTot : loadTotals st' = st' := by
    unfold loadTotals
    rw [hitems, hord, recomputeTotals_idem, ← hord, ← hitems]
  show runLoad b st' = Except.ok st'
  unfold runLoad
  rw [eComp, eAddr, eCat, exceptBindOkEq, eSub, exceptBindOkEq, eUsers, eProds,
    eCarts, eReq, exceptBindOkEq, eItems, exceptBindOkEq, eTot]
  rfl

/-- Witness for C3: a second run of the demo load reproduces the state the
first run produced. -/
theorem C3_witness :
    runLoad demoBundle (okOr demoStore (runLoad demoBundle demoStore)) =
      Except.ok (okOr demoStore (runLoad demoBundle demoStore)) :=
  C3_load_idempotent demoBundle demoStore
    (okOr demoStore (runLoad demoBundle demoStore)) (by rfl)

end Snack25
